import Mathlib

/-!
Verification of the metatile / locking-cache / map-pool core of
tilelive-mapnik against its specification.

The development shallowly embeds the relevant JavaScript sources:

* `src/lib/metatile.js` — metatile geometry (`parseCoords`,
  `getMetatileCoords`, `calculateMetatile`, `getBoundingBox`).
  Coordinates are JavaScript numbers; on the domain exercised by the
  claims (integer coordinates, `metatile ≥ 1`, `z ≥ 0`) every operation
  is exact integer arithmetic, embedded over `ℤ` with the JavaScript
  remainder operator `%` embedded as `Int.tmod` (truncated remainder,
  sign of the dividend).  A second embedding over `ℚ` covers the wider
  input domain the untyped source also accepts (negative or fractional
  `z`, fractional `metatile`), which claim C8 is about.
* `src/lib/metatile-cache.js` — the generator handed to the locking
  cache (cache keys and the fan-out of results or errors).
* `src/lib/mapnik_backend.js` — coordinate validation
  (`areCoordsNumbers`, `areCoordsInRange`, `areValidCoords`),
  `_renderTile`, and the control flow of `_renderMetatile` (pool
  acquire / release discipline).
* `src/lib/map-pool.js` — the pool factory `create` function.

The repository does not ship `lib/lockingcache.js` (only its callers and
tests are present), so the LockingCache state machine is modelled from
the specification, marked `Modelled from the spec:` on the definitions.
-/

namespace TileliveMapnik

/-- Input options of `calculateMetatile` in `src/lib/metatile.js`
(the fields of the `options` object that the function reads).  On the
valid domain the coordinates are integers and `z` is a non-negative
integer. -/
structure TileOptions where
  metatile : ℤ
  tileSize : ℤ
  z : ℕ
  x : ℤ
  y : ℤ
deriving DecidableEq, Repr

/-- Embedding of `parseCoords` from `src/lib/metatile.js`:
`x -= x % options.metatile; y -= y % options.metatile` aligns the
coordinates to a metatile boundary.  The JavaScript `%` operator is the
truncated remainder (sign of the dividend), i.e. `Int.tmod`. -/
def parseCoords (o : TileOptions) : ℕ × ℤ × ℤ :=
  (o.z, o.x - o.x.tmod o.metatile, o.y - o.y.tmod o.metatile)

/-- Embedding of the local `metaWidth` of `calculateMetatile`:
`Math.min(metatile, total, total - x)` where `total = 2^z` and `x` is
the aligned origin produced by `parseCoords`. -/
def metaWidth (o : TileOptions) : ℤ :=
  min o.metatile (min (2 ^ o.z) (2 ^ o.z - (parseCoords o).2.1))

/-- Embedding of the local `metaHeight` of `calculateMetatile`:
`Math.min(metatile, total, total - y)` for the aligned origin `y`. -/
def metaHeight (o : TileOptions) : ℤ :=
  min o.metatile (min (2 ^ o.z) (2 ^ o.z - (parseCoords o).2.2))

/-- Embedding of `getMetatileCoords` from `src/lib/metatile.js`: the
nested loop `for (dx = 0; dx < metaWidth; dx++) for (dy = 0; dy <
metaHeight; dy++) coords.push([z, x + dx, y + dy])`.  The outer loop
runs over `dx` (x-major), the inner over `dy` (y-minor); an integer
loop bound `w` yields `max 0 w` iterations, i.e. `w.toNat`. -/
def getMetatileCoords (z : ℕ) (x y : ℤ) (metaW metaH : ℤ) : List (ℕ × ℤ × ℤ) :=
  (List.range metaW.toNat).flatMap (fun (dx : ℕ) =>
    (List.range metaH.toNat).map (fun (dy : ℕ) => (z, x + (dx : ℤ), y + (dy : ℤ))))

/-- Result record of `calculateMetatile` (its discrete fields).  The
`bbox` field of the source result lives in `ℝ` and is embedded
separately by `getBoundingBox` / `metatileBBox` below, applied to
exactly the arguments the source passes. -/
structure Metatile where
  width : ℤ
  height : ℤ
  x : ℤ
  y : ℤ
  tiles : List (ℕ × ℤ × ℤ)
deriving DecidableEq, Repr

/-- Embedding of `calculateMetatile` from `src/lib/metatile.js`
(discrete part): aligned origin from `parseCoords`, clipped extent
`metaWidth`/`metaHeight`, member tiles from `getMetatileCoords`, and
pixel dimensions `metaWidth * tileSize` by `metaHeight * tileSize`. -/
def calculateMetatile (o : TileOptions) : Metatile :=
  { width := metaWidth o * o.tileSize
    height := metaHeight o * o.tileSize
    x := (parseCoords o).2.1
    y := (parseCoords o).2.2
    tiles := getMetatileCoords o.z (parseCoords o).2.1 (parseCoords o).2.2
      (metaWidth o) (metaHeight o) }

/-- Constant from `src/lib/metatile.js`: `EARTH_RADIUS = 6378137`. -/
noncomputable def EARTH_RADIUS : ℝ := 6378137

/-- Constant from `src/lib/metatile.js`: `EARTH_DIAMETER = EARTH_RADIUS * 2`. -/
noncomputable def EARTH_DIAMETER : ℝ := EARTH_RADIUS * 2

/-- Constant from `src/lib/metatile.js`:
`EARTH_CIRCUMFERENCE = EARTH_DIAMETER * Math.PI`. -/
noncomputable def EARTH_CIRCUMFERENCE : ℝ := EARTH_DIAMETER * Real.pi

/-- Constant from `src/lib/metatile.js`: `MAX_RES = EARTH_CIRCUMFERENCE / 256`. -/
noncomputable def MAX_RES : ℝ := EARTH_CIRCUMFERENCE / 256

/-- Constant from `src/lib/metatile.js`: `ORIGIN_SHIFT = EARTH_CIRCUMFERENCE / 2`. -/
noncomputable def ORIGIN_SHIFT : ℝ := EARTH_CIRCUMFERENCE / 2

/-- Embedding of `getBoundingBox` from `src/lib/metatile.js` (the `z`
parameter of the source is destructured but unused in the body).  The
JavaScript floating-point arithmetic is modelled over `ℝ`. -/
noncomputable def getBoundingBox (x y resolution metaW metaH : ℝ) : ℝ × ℝ × ℝ × ℝ :=
  ((x * 256) * resolution - ORIGIN_SHIFT,
   -((y + metaH) * 256) * resolution + ORIGIN_SHIFT,
   ((x + metaW) * 256) * resolution - ORIGIN_SHIFT,
   -((y * 256) * resolution - ORIGIN_SHIFT))

/-- Bounding box of the computed metatile: `calculateMetatile` calls
`getBoundingBox({z, x, y, resolution, metaWidth, metaHeight})` with the
aligned origin, `resolution = MAX_RES / total`, and the clipped
extents. -/
noncomputable def metatileBBox (o : TileOptions) : ℝ × ℝ × ℝ × ℝ :=
  getBoundingBox ((parseCoords o).2.1 : ℝ) ((parseCoords o).2.2 : ℝ)
    (MAX_RES / 2 ^ o.z) (metaWidth o : ℝ) (metaHeight o : ℝ)

/-- Definition following the words of the spec (§4.1), for comparison
with `getBoundingBox`: resolution `= (2·π·R) / (256 · total)` with
`R = 6378137`, `halfCircumference = (2·π·R) / 2`,
`minX = originX·256·resolution − halfCircumference`,
`maxX = (originX+widthTiles)·256·resolution − halfCircumference`,
`minY = −((originY+heightTiles)·256·resolution) + halfCircumference`,
`maxY = −(originY·256·resolution) + halfCircumference`. -/
noncomputable def specBoundingBox (total originX originY widthTiles heightTiles : ℝ) :
    ℝ × ℝ × ℝ × ℝ :=
  let resolution : ℝ := (2 * Real.pi * 6378137) / (256 * total)
  let halfCircumference : ℝ := (2 * Real.pi * 6378137) / 2
  (originX * 256 * resolution - halfCircumference,
   -((originY + heightTiles) * 256 * resolution) + halfCircumference,
   (originX + widthTiles) * 256 * resolution - halfCircumference,
   -(originY * 256 * resolution) + halfCircumference)

/-- Input options of `calculateMetatile` on the full numeric domain the
untyped source accepts: coordinates and sizes are arbitrary rationals
and `z` an arbitrary integer (`Math.pow(2, z)` is exact for integer
exponents).  Inputs on which JavaScript produces `NaN` (a zero
`metatile`) are outside the faithful domain and excluded by hypothesis
where relevant. -/
structure TileOptionsQ where
  metatile : ℚ
  tileSize : ℚ
  z : ℤ
  x : ℚ
  y : ℚ
deriving DecidableEq, Repr

/-- Truncation toward zero, the rounding JavaScript uses to define the
`%` operator on numbers. -/
def jsTrunc (q : ℚ) : ℤ :=
  if 0 ≤ q then ⌊q⌋ else -⌊-q⌋

/-- The JavaScript `%` operator on numbers: `a % m = a - m * trunc(a / m)`
(truncated remainder, sign of the dividend).  For `m = 0` JavaScript
yields `NaN`; that case is excluded by hypothesis wherever this
definition is used. -/
def jsMod (a m : ℚ) : ℚ :=
  a - m * jsTrunc (a / m)

/-- Number of iterations of the JavaScript loop
`for (i = 0; i < bound; i++)` for a (possibly fractional or negative)
numeric bound. -/
def loopCount (bound : ℚ) : ℕ :=
  (⌈bound⌉).toNat

/-- Result record of `calculateMetatile` over the full numeric domain
(discrete fields; the `bbox` field lives in `ℝ` and is modelled by
`getBoundingBox`). -/
structure MetatileQ where
  width : ℚ
  height : ℚ
  x : ℚ
  y : ℚ
  tiles : List (ℤ × ℚ × ℚ)
deriving DecidableEq, Repr

/-- Embedding of `calculateMetatile` from `src/lib/metatile.js` over the
full numeric domain: identical arithmetic to `calculateMetatile`, with
JavaScript `%` as `jsMod` and `total = 2^z` as an exact rational
power. -/
def calculateMetatileQ (o : TileOptionsQ) : MetatileQ :=
  let x := o.x - jsMod o.x o.metatile
  let y := o.y - jsMod o.y o.metatile
  let total : ℚ := 2 ^ o.z
  let metaW := min o.metatile (min total (total - x))
  let metaH := min o.metatile (min total (total - y))
  { width := metaW * o.tileSize
    height := metaH * o.tileSize
    x := x
    y := y
    tiles := (List.range (loopCount metaW)).flatMap fun (dx : ℕ) =>
      (List.range (loopCount metaH)).map fun (dy : ℕ) => (o.z, x + (dx : ℚ), y + (dy : ℚ)) }

/-- Embedding of `calculateMetatile` with its failure channel made
explicit: the source performs no input validation and contains no
`throw`, so every call returns normally; the `Except` wrapper records
that no input reaches an error. -/
def calculateMetatileQE (o : TileOptionsQ) : Except String MetatileQ :=
  .ok (calculateMetatileQ o)

/-- Cast of the valid-domain options into the full-domain options. -/
def TileOptions.toQ (o : TileOptions) : TileOptionsQ :=
  { metatile := o.metatile, tileSize := o.tileSize, z := o.z, x := o.x, y := o.y }

/-- Cast of a member-tile triple into the full numeric domain. -/
def tileToQ (t : ℕ × ℤ × ℤ) : ℤ × ℚ × ℚ :=
  (t.1, t.2.1, t.2.2)

/-- Cast of a valid-domain metatile record into the full numeric
domain. -/
def Metatile.toQ (m : Metatile) : MetatileQ :=
  { width := m.width, height := m.height, x := m.x, y := m.y, tiles := m.tiles.map tileToQ }

/-- Embedding of `areCoordsNumbers` from `src/lib/mapnik_backend.js`:
`if (isNaN(z) || isNaN(x) || isNaN(y)) throw`.  A coordinate is the
result of the `+` coercion in `_renderTile`: either a number (the
callers and tests use integers, embedded as `some n`) or `NaN`
(embedded as `none`).  The source appends the offending values to the
message. -/
def areCoordsNumbers (z x y : Option ℤ) : Except String Unit :=
  match z, x, y with
  | some _, some _, some _ => .ok ()
  | _, _, _ => .error "Invalid coordinates"

/-- Embedding of `areCoordsInRange` from `src/lib/mapnik_backend.js`:
`max = Math.pow(2, z); if (!isFinite(max) || x >= max || x < 0 || y >= max || y < 0) throw`.
As a double, `Math.pow(2, z)` for an integer `z` overflows to
`Infinity` exactly when `z ≥ 1024`; for `z < 1024` the comparisons are
exact and embedded over `ℚ` (`2^z` is fractional for negative `z`). -/
def areCoordsInRange (z x y : ℤ) : Except String Unit :=
  if 1024 ≤ z ∨ (2 : ℚ) ^ z ≤ (x : ℚ) ∨ x < 0 ∨ (2 : ℚ) ^ z ≤ (y : ℚ) ∨ y < 0 then
    .error "Coordinates out of range"
  else
    .ok ()

/-- Embedding of `areValidCoords` from `src/lib/mapnik_backend.js`:
`areCoordsNumbers` then `areCoordsInRange`.  The `getD` defaults are
never read: the numeric check only succeeds when all three coordinates
are numbers. -/
def areValidCoords (z x y : Option ℤ) : Except String Unit :=
  (areCoordsNumbers z x y).bind fun _ =>
    areCoordsInRange (z.getD 0) (x.getD 0) (y.getD 0)

/-- Observable first step of `_renderTile`: either the callback receives
an error synchronously (and nothing else runs), or the request proceeds
to `this._metatileCache.get(key)` with the computed key.  The `fail`
constructor carries no cache interaction, so an invalid request touches
neither the cache generator nor the pool. -/
inductive RenderTileStep where
  | fail (e : String)
  | cacheGet (key : String)
deriving DecidableEq, Repr

/-- Embedding of `MapnikSource.prototype._renderTile` from
`src/lib/mapnik_backend.js`: coerce the coordinates, run
`areValidCoords` in a `try`, on a throw return the error to the
callback synchronously; otherwise build the key
`[format, z, x, y].join(',')` and hand it to the metatile cache. -/
def renderTile (format : String) (z x y : Option ℤ) : RenderTileStep :=
  match areValidCoords z x y with
  | .error e => .fail e
  | .ok _ => .cacheGet (String.intercalate ","
      [format, toString (z.getD 0), toString (x.getD 0), toString (y.getD 0)])

/-- Embedding of `getTile`: `format = (this._info && this._info.format) || 'png'`
then `_renderTile(format, z, x, y, callback)`. -/
def getTileStep (infoFormat : Option String) (z x y : Option ℤ) : RenderTileStep :=
  renderTile (infoFormat.getD "png") z x y

/-- Embedding of `getGrid`: `_renderTile('utf', z, x, y, callback)`. -/
def getGridStep (z x y : Option ℤ) : RenderTileStep :=
  renderTile "utf" z x y

/-- A value handed out by the map pool: either a working `mapnik.Map`
(whose `parameters` may or may not declare interactivity) or, because
the factory never rejects, an error value standing in for a handle. -/
inductive PoolResource where
  | validMap (hasInteractivity : Bool)
  | failedResource (e : String)
deriving DecidableEq, Repr

/-- Result of a JavaScript promise: fulfilled with a value or rejected
with an error. -/
inductive PromiseResult (α : Type) where
  | resolved (value : α)
  | rejected (e : String)
deriving DecidableEq, Repr

/-- The ways construction of a map inside the pool factory can go:
the constructor or setup code throws, `map.fromString` reports an
error to its callback, or the map is built. -/
inductive CreateOutcome where
  | built (hasInteractivity : Bool)
  | fromStringFailed (e : String)
  | ctorThrew (e : String)
deriving DecidableEq, Repr

/-- Embedding of the `factory.create` function of `createMapPool` in
`src/lib/map-pool.js`: the returned promise is always resolved — a
`fromString` error is passed to `resolve(err)`, a thrown exception is
caught and passed to `resolve(err)`, and a successful build resolves
with the map.  The promise executor never calls a reject function
(none is even bound). -/
def poolCreate : CreateOutcome → PromiseResult PoolResource
  | .built h => .resolved (.validMap h)
  | .fromStringFailed e => .resolved (.failedResource e)
  | .ctorThrew e => .resolved (.failedResource e)

/-- The ways the render stage inside `_renderMetatile` can go: the
synchronous setup (`map.resize`, `map.extent`, `map.render`) throws,
`map.render` reports an error to its callback, or rendering succeeds
and slicing proceeds. -/
inductive RenderOutcome where
  | renderThrew (e : String)
  | renderCallbackError (e : String)
  | rendered
deriving DecidableEq, Repr

/-- Observable effects of one `_renderMetatile` call: how many times the
pool release function ran, and what the callback received (with the
sliced tiles abstracted to `()`). -/
structure RenderMetatileTrace where
  releases : ℕ
  outcome : Except String Unit
deriving Repr

/-- Embedding of the control flow of
`MapnikSource.prototype._renderMetatile` from
`src/lib/mapnik_backend.js`: acquire from the pool; a rejected acquire
reaches the promise `.catch` and the callback with nothing acquired; an
acquired non-`Map` value is released and its error thrown to the
`.catch`; with a map, a `utf` request against a map without
interactivity parameters returns the error to the callback directly
(no release on that path); otherwise a synchronous throw is caught,
releasing the map before the callback, and the `map.render` callback
releases the map first and then reports its error or the sliced
tiles. -/
def renderMetatile (format : String) (acq : PromiseResult PoolResource)
    (render : RenderOutcome) : RenderMetatileTrace :=
  match acq with
  | .rejected e => { releases := 0, outcome := .error e }
  | .resolved (.failedResource e) => { releases := 1, outcome := .error e }
  | .resolved (.validMap hasInteractivity) =>
    if format = "utf" ∧ hasInteractivity = false then
      { releases := 0, outcome := .error "Tileset has no interactivity" }
    else
      match render with
      | .renderThrew e => { releases := 1, outcome := .error e }
      | .renderCallbackError e => { releases := 1, outcome := .error e }
      | .rendered => { releases := 1, outcome := .ok () }

/-- Modelled from the spec: the repository does not ship
`lib/lockingcache.js` (only its callers are under `src`), so cache
entries follow §4.2 of the spec — a key is absent, pending under an
in-flight generation, or resolved with a value. -/
inductive LCEntry (V : Type) where
  | pending
  | resolved (v : V)
deriving DecidableEq, Repr

/-- Modelled from the spec: the mutable state of a LockingCache — the
key-to-entry map (an association list, newest entry first) plus a
count of generator invocations made so far. -/
structure LCState (V : Type) where
  entries : List (String × LCEntry V)
  invocations : ℕ
deriving DecidableEq, Repr

/-- How one `get` call was served: it triggered the generator (a cache
MISS), it joined the waiter set of an in-flight generation, or it was
served from a resolved entry (a cache HIT). -/
inductive LCOutcome where
  | generated
  | joined
  | hit
deriving DecidableEq, Repr

/-- Modelled from the spec: the `Carto-Metatile-Cache` header reported
for a request — `MISS` for the request that triggered the generation,
`HIT` for a request served from the cache
(`src/test/render.metatile.cache.js` exercises exactly these two). -/
def cacheStatusHeader : LCOutcome → String
  | .generated => "MISS"
  | .joined => "HIT"
  | .hit => "HIT"

/-- Modelled from the spec (§4.2, generator protocol): `get` on a
resolved key returns it; on a pending key it joins the in-flight
generation without invoking the generator; on an absent key it invokes
the generator once, and the full list of keys the generator returns
synchronously is marked pending under this generation before anything
resolves. -/
def lcGet {V : Type} (generator : String → List String) (s : LCState V) (k : String) :
    LCState V × LCOutcome :=
  match s.entries.lookup k with
  | some (.resolved _) => (s, .hit)
  | some .pending => (s, .joined)
  | none =>
      ({ entries := (generator k).map (fun key => (key, LCEntry.pending)) ++ s.entries,
         invocations := s.invocations + 1 },
       .generated)

/-- Modelled from the spec (§4.2): `put` resolves a key with a value
(or an error, when `V` is an `Except`). -/
def lcPut {V : Type} (s : LCState V) (k : String) (v : V) : LCState V :=
  { s with entries := (k, LCEntry.resolved v) :: s.entries }

/-- Run a sequence of `get` calls, collecting each call's outcome. -/
def lcRun {V : Type} (generator : String → List String) (s : LCState V) :
    List String → LCState V × List LCOutcome
  | [] => (s, [])
  | k :: ks =>
      let step := lcGet generator s k
      let rest := lcRun generator step.1 ks
      (rest.1, step.2 :: rest.2)

/-- Apply a list of `put` calls (key, value) to a cache state. -/
def applyPuts {V : Type} (s : LCState V) (puts : List (String × V)) : LCState V :=
  puts.foldl (fun st p => lcPut st p.1 p.2) s

/-- Embedding of the cache-key construction in `metatileCacheGeneratorFn`
(`src/lib/metatile-cache.js`): `options.format + ',' + tile.join(',')`. -/
def cacheKey (format : String) (t : ℕ × ℤ × ℤ) : String :=
  format ++ "," ++ String.intercalate "," [toString t.1, toString t.2.1, toString t.2.2]

/-- Embedding of the `cache_keys` list of `metatileCacheGeneratorFn`:
one key per member tile of the computed metatile. -/
def metatileCacheKeys (format : String) (o : TileOptions) : List String :=
  (calculateMetatile o).tiles.map (cacheKey format)

/-- Embedding of the `_renderMetatile` callback inside
`metatileCacheGeneratorFn` (`src/lib/metatile-cache.js`): on an error,
`cache.put(key, err)` for every claimed key; on success,
`cache.put(key, null, tiles[key]...)` for every claimed key.  A put
value is `Except.error err` or `Except.ok (tiles key)`. -/
def generatorPuts {E V : Type} (cacheKeys : List String) (result : Except E (String → V)) :
    List (String × Except E V) :=
  match result with
  | .error err => cacheKeys.map fun key => (key, .error err)
  | .ok tiles => cacheKeys.map fun key => (key, .ok (tiles key))

lemma alignX (o : TileOptions) (hm : 1 ≤ o.metatile) (hx0 : 0 ≤ o.x) (hx1 : o.x < 2 ^ o.z) :
    0 ≤ (parseCoords o).2.1 ∧ (parseCoords o).2.1 ≤ o.x ∧
    o.x < (parseCoords o).2.1 + metaWidth o ∧
    (parseCoords o).2.1 + metaWidth o ≤ 2 ^ o.z ∧
    metaWidth o ≤ o.metatile ∧ o.metatile ∣ (parseCoords o).2.1 := by
  have hmne : o.metatile ≠ 0 := by omega
  have htx : o.x.tmod o.metatile = o.x % o.metatile := Int.tmod_eq_emod hx0 (by omega)
  have hx2 : 0 ≤ o.x % o.metatile := Int.emod_nonneg o.x hmne
  have hx3 : o.x % o.metatile < o.metatile := Int.emod_lt_of_pos o.x (by omega)
  have hdx : 0 ≤ o.metatile * (o.x / o.metatile) :=
    mul_nonneg (by omega) (Int.ediv_nonneg hx0 (by omega))
  have hex := Int.ediv_add_emod o.x o.metatile
  simp only [parseCoords, metaWidth, htx]
  have hlt : o.x - (o.x - o.x % o.metatile) <
      min o.metatile (min (2 ^ o.z) (2 ^ o.z - (o.x - o.x % o.metatile))) :=
    lt_min (by omega) (lt_min (by omega) (by omega))
  have hle : min o.metatile (min (2 ^ o.z) (2 ^ o.z - (o.x - o.x % o.metatile))) ≤
      2 ^ o.z - (o.x - o.x % o.metatile) :=
    le_trans (min_le_right _ _) (min_le_right _ _)
  have hlem : min o.metatile (min (2 ^ o.z) (2 ^ o.z - (o.x - o.x % o.metatile))) ≤
      o.metatile := min_le_left _ _
  exact ⟨by omega, by omega, by omega, by omega, hlem, ⟨o.x / o.metatile, by omega⟩⟩

lemma alignY (o : TileOptions) (hm : 1 ≤ o.metatile) (hy0 : 0 ≤ o.y) (hy1 : o.y < 2 ^ o.z) :
    0 ≤ (parseCoords o).2.2 ∧ (parseCoords o).2.2 ≤ o.y ∧
    o.y < (parseCoords o).2.2 + metaHeight o ∧
    (parseCoords o).2.2 + metaHeight o ≤ 2 ^ o.z ∧
    metaHeight o ≤ o.metatile ∧ o.metatile ∣ (parseCoords o).2.2 := by
  have hmne : o.metatile ≠ 0 := by omega
  have hty : o.y.tmod o.metatile = o.y % o.metatile := Int.tmod_eq_emod hy0 (by omega)
  have hy2 : 0 ≤ o.y % o.metatile := Int.emod_nonneg o.y hmne
  have hy3 : o.y % o.metatile < o.metatile := Int.emod_lt_of_pos o.y (by omega)
  have hdy : 0 ≤ o.metatile * (o.y / o.metatile) :=
    mul_nonneg (by omega) (Int.ediv_nonneg hy0 (by omega))
  have hey := Int.ediv_add_emod o.y o.metatile
  simp only [parseCoords, metaHeight, hty]
  have hlt : o.y - (o.y - o.y % o.metatile) <
      min o.metatile (min (2 ^ o.z) (2 ^ o.z - (o.y - o.y % o.metatile))) :=
    lt_min (by omega) (lt_min (by omega) (by omega))
  have hle : min o.metatile (min (2 ^ o.z) (2 ^ o.z - (o.y - o.y % o.metatile))) ≤
      2 ^ o.z - (o.y - o.y % o.metatile) :=
    le_trans (min_le_right _ _) (min_le_right _ _)
  have hlem : min o.metatile (min (2 ^ o.z) (2 ^ o.z - (o.y - o.y % o.metatile))) ≤
      o.metatile := min_le_left _ _
  exact ⟨by omega, by omega, by omega, by omega, hlem, ⟨o.y / o.metatile, by omega⟩⟩

/-- C2: for every `z ≥ 0`, `metatileSize ≥ 1` and `0 ≤ x, y < 2^z`, the
computed region contains the requested tile and stays inside the
pyramid: `originX ≤ x < originX + widthTiles`,
`originX + widthTiles ≤ 2^z`, and symmetrically for `y`, where the
origin is the `x`/`y` field of the computed metatile and the extents
are `metaWidth`/`metaHeight`. -/
theorem calculateMetatile_within_pyramid (o : TileOptions)
    (hm : 1 ≤ o.metatile)
    (hx0 : 0 ≤ o.x) (hx1 : o.x < 2 ^ o.z)
    (hy0 : 0 ≤ o.y) (hy1 : o.y < 2 ^ o.z) :
    (calculateMetatile o).x ≤ o.x ∧
    o.x < (calculateMetatile o).x + metaWidth o ∧
    (calculateMetatile o).x + metaWidth o ≤ 2 ^ o.z ∧
    (calculateMetatile o).y ≤ o.y ∧
    o.y < (calculateMetatile o).y + metaHeight o ∧
    (calculateMetatile o).y + metaHeight o ≤ 2 ^ o.z := by
  have hmne : o.metatile ≠ 0 := by omega
  have htx : o.x.tmod o.metatile = o.x % o.metatile :=
    Int.tmod_eq_emod hx0 (by omega)
  have hty : o.y.tmod o.metatile = o.y % o.metatile :=
    Int.tmod_eq_emod hy0 (by omega)
  have hx2 : 0 ≤ o.x % o.metatile := Int.emod_nonneg o.x hmne
  have hx3 : o.x % o.metatile < o.metatile := Int.emod_lt_of_pos o.x (by omega)
  have hy2 : 0 ≤ o.y % o.metatile := Int.emod_nonneg o.y hmne
  have hy3 : o.y % o.metatile < o.metatile := Int.emod_lt_of_pos o.y (by omega)
  have hdx : 0 ≤ o.metatile * (o.x / o.metatile) :=
    mul_nonneg (by omega) (Int.ediv_nonneg hx0 (by omega))
  have hex := Int.ediv_add_emod o.x o.metatile
  have hdy : 0 ≤ o.metatile * (o.y / o.metatile) :=
    mul_nonneg (by omega) (Int.ediv_nonneg hy0 (by omega))
  have hey := Int.ediv_add_emod o.y o.metatile
  have hx4 : o.x % o.metatile ≤ o.x := by omega
  have hy4 : o.y % o.metatile ≤ o.y := by omega
  simp only [calculateMetatile, metaWidth, metaHeight, parseCoords, htx, hty]
  have hwx : o.x - (o.x - o.x % o.metatile) <
      min o.metatile (min (2 ^ o.z) (2 ^ o.z - (o.x - o.x % o.metatile))) :=
    lt_min (by omega) (lt_min (by omega) (by omega))
  have hwx2 : min o.metatile (min (2 ^ o.z) (2 ^ o.z - (o.x - o.x % o.metatile))) ≤
      2 ^ o.z - (o.x - o.x % o.metatile) :=
    le_trans (min_le_right _ _) (min_le_right _ _)
  have hwy : o.y - (o.y - o.y % o.metatile) <
      min o.metatile (min (2 ^ o.z) (2 ^ o.z - (o.y - o.y % o.metatile))) :=
    lt_min (by omega) (lt_min (by omega) (by omega))
  have hwy2 : min o.metatile (min (2 ^ o.z) (2 ^ o.z - (o.y - o.y % o.metatile))) ≤
      2 ^ o.z - (o.y - o.y % o.metatile) :=
    le_trans (min_le_right _ _) (min_le_right _ _)
  refine ⟨by omega, by omega, by omega, by omega, by omega, by omega⟩

/-- Witness for C2 at the concrete input
`metatile = 2, tileSize = 256, z = 2, x = 3, y = 1`. -/
theorem calculateMetatile_within_pyramid_witness :
    (calculateMetatile { metatile := 2, tileSize := 256, z := 2, x := 3, y := 1 }).x ≤ 3 ∧
    (3 : ℤ) < (calculateMetatile { metatile := 2, tileSize := 256, z := 2, x := 3, y := 1 }).x +
      metaWidth { metatile := 2, tileSize := 256, z := 2, x := 3, y := 1 } ∧
    (calculateMetatile { metatile := 2, tileSize := 256, z := 2, x := 3, y := 1 }).x +
      metaWidth { metatile := 2, tileSize := 256, z := 2, x := 3, y := 1 } ≤ 2 ^ 2 ∧
    (calculateMetatile { metatile := 2, tileSize := 256, z := 2, x := 3, y := 1 }).y ≤ 1 ∧
    (1 : ℤ) < (calculateMetatile { metatile := 2, tileSize := 256, z := 2, x := 3, y := 1 }).y +
      metaHeight { metatile := 2, tileSize := 256, z := 2, x := 3, y := 1 } ∧
    (calculateMetatile { metatile := 2, tileSize := 256, z := 2, x := 3, y := 1 }).y +
      metaHeight { metatile := 2, tileSize := 256, z := 2, x := 3, y := 1 } ≤ 2 ^ 2 :=
  calculateMetatile_within_pyramid _ (by decide) (by decide) (by decide) (by decide) (by decide)

lemma getMetatileCoords_eq_product (z : ℕ) (x y : ℤ) (metaW metaH : ℤ) :
    getMetatileCoords z x y metaW metaH =
      ((List.range metaW.toNat) ×ˢ (List.range metaH.toNat)).map
        (fun d => (z, x + (d.1 : ℤ), y + (d.2 : ℤ))) := by
  show _ = ((List.range metaW.toNat).flatMap fun a =>
      (List.range metaH.toNat).map (Prod.mk a)).map
        (fun d => (z, x + (d.1 : ℤ), y + (d.2 : ℤ)))
  rw [List.map_flatMap]
  unfold getMetatileCoords
  congr 1
  funext dx
  rw [List.map_map]
  rfl

/-- C6: the member tiles are exactly the Cartesian product
`[originX, originX+widthTiles) × [originY, originY+heightTiles)` at the
same `z`, enumerated in x-major, y-minor order (the lexicographic list
product), with `widthTiles * heightTiles` distinct elements including
the requested tile, and the pixel dimensions are
`widthTiles * tileSizePx` by `heightTiles * tileSizePx`. -/
theorem calculateMetatile_tiles_cartesian (o : TileOptions)
    (hm : 1 ≤ o.metatile) (hx0 : 0 ≤ o.x) (hx1 : o.x < 2 ^ o.z)
    (hy0 : 0 ≤ o.y) (hy1 : o.y < 2 ^ o.z) :
    (calculateMetatile o).tiles =
      ((List.range (metaWidth o).toNat) ×ˢ (List.range (metaHeight o).toNat)).map
        (fun d => (o.z, (calculateMetatile o).x + (d.1 : ℤ),
          (calculateMetatile o).y + (d.2 : ℤ))) ∧
    (calculateMetatile o).tiles.length = (metaWidth o).toNat * (metaHeight o).toNat ∧
    (calculateMetatile o).tiles.Nodup ∧
    (o.z, o.x, o.y) ∈ (calculateMetatile o).tiles ∧
    (calculateMetatile o).width = metaWidth o * o.tileSize ∧
    (calculateMetatile o).height = metaHeight o * o.tileSize := by
  obtain ⟨hpx0, hxle, hxlt, hxin, hwm, hdvdx⟩ := alignX o hm hx0 hx1
  obtain ⟨hpy0, hyle, hylt, hyin, hhm, hdvdy⟩ := alignY o hm hy0 hy1
  have h1 : (calculateMetatile o).tiles =
      ((List.range (metaWidth o).toNat) ×ˢ (List.range (metaHeight o).toNat)).map
        (fun d => (o.z, (calculateMetatile o).x + (d.1 : ℤ),
          (calculateMetatile o).y + (d.2 : ℤ))) :=
    getMetatileCoords_eq_product o.z (parseCoords o).2.1 (parseCoords o).2.2
      (metaWidth o) (metaHeight o)
  have hinj : Function.Injective
      (fun d : ℕ × ℕ => ((o.z, (calculateMetatile o).x + (d.1 : ℤ),
        (calculateMetatile o).y + (d.2 : ℤ)) : ℕ × ℤ × ℤ)) := by
    intro a b hab
    simp only [Prod.mk.injEq] at hab
    have ha1 : (a.1 : ℤ) = (b.1 : ℤ) := by omega
    have ha2 : (a.2 : ℤ) = (b.2 : ℤ) := by omega
    exact Prod.ext (by exact_mod_cast ha1) (by exact_mod_cast ha2)
  refine ⟨h1, ?_, ?_, ?_, rfl, rfl⟩
  · rw [h1, List.length_map, List.length_product, List.length_range, List.length_range]
  · rw [h1]
    exact ((List.nodup_range _).product (List.nodup_range _)).map hinj
  · rw [h1]
    refine List.mem_map.2 ⟨((o.x - (parseCoords o).2.1).toNat,
      (o.y - (parseCoords o).2.2).toNat), List.mem_product.2
        ⟨List.mem_range.2 (by omega), List.mem_range.2 (by omega)⟩, ?_⟩
    have hcx : ((o.x - (parseCoords o).2.1).toNat : ℤ) = o.x - (parseCoords o).2.1 :=
      Int.toNat_of_nonneg (by omega)
    have hcy : ((o.y - (parseCoords o).2.2).toNat : ℤ) = o.y - (parseCoords o).2.2 :=
      Int.toNat_of_nonneg (by omega)
    have hfx : (calculateMetatile o).x = (parseCoords o).2.1 := rfl
    have hfy : (calculateMetatile o).y = (parseCoords o).2.2 := rfl
    simp only [Prod.mk.injEq, hfx, hfy, hcx, hcy]
    exact ⟨trivial, by omega, by omega⟩

/-- Witness for C6 at the concrete input
`metatile = 2, tileSize = 256, z = 2, x = 3, y = 1`. -/
theorem calculateMetatile_tiles_cartesian_witness :
    (calculateMetatile { metatile := 2, tileSize := 256, z := 2, x := 3, y := 1 }).tiles =
      ((List.range (metaWidth { metatile := 2, tileSize := 256, z := 2, x := 3, y := 1 }).toNat) ×ˢ
        (List.range (metaHeight { metatile := 2, tileSize := 256, z := 2, x := 3, y := 1 }).toNat)).map
        (fun d => (2, (calculateMetatile { metatile := 2, tileSize := 256, z := 2, x := 3, y := 1 }).x + (d.1 : ℤ),
          (calculateMetatile { metatile := 2, tileSize := 256, z := 2, x := 3, y := 1 }).y + (d.2 : ℤ))) ∧
    (calculateMetatile { metatile := 2, tileSize := 256, z := 2, x := 3, y := 1 }).tiles.length =
      (metaWidth { metatile := 2, tileSize := 256, z := 2, x := 3, y := 1 }).toNat *
      (metaHeight { metatile := 2, tileSize := 256, z := 2, x := 3, y := 1 }).toNat ∧
    (calculateMetatile { metatile := 2, tileSize := 256, z := 2, x := 3, y := 1 }).tiles.Nodup ∧
    ((2 : ℕ), (3 : ℤ), (1 : ℤ)) ∈
      (calculateMetatile { metatile := 2, tileSize := 256, z := 2, x := 3, y := 1 }).tiles ∧
    (calculateMetatile { metatile := 2, tileSize := 256, z := 2, x := 3, y := 1 }).width =
      metaWidth { metatile := 2, tileSize := 256, z := 2, x := 3, y := 1 } * 256 ∧
    (calculateMetatile { metatile := 2, tileSize := 256, z := 2, x := 3, y := 1 }).height =
      metaHeight { metatile := 2, tileSize := 256, z := 2, x := 3, y := 1 } * 256 :=
  calculateMetatile_tiles_cartesian _ (by decide) (by decide) (by decide) (by decide) (by decide)

lemma tmod_origin_add {m x0 dx : ℤ} (hm : 1 ≤ m) (hx0 : 0 ≤ x0) (hdvd : m ∣ x0)
    (h0 : 0 ≤ dx) (hlt : dx < m) : (x0 + dx).tmod m = dx := by
  obtain ⟨t, rfl⟩ := hdvd
  rw [Int.tmod_eq_emod (by omega) (by omega), add_comm,
    Int.add_mul_emod_self_left, Int.emod_eq_of_lt h0 hlt]

lemma memberTile_parseCoords (o : TileOptions) (hm : 1 ≤ o.metatile)
    (hx0 : 0 ≤ o.x) (hx1 : o.x < 2 ^ o.z) (hy0 : 0 ≤ o.y) (hy1 : o.y < 2 ^ o.z)
    (t : ℕ × ℤ × ℤ) (ht : t ∈ (calculateMetatile o).tiles) :
    parseCoords { o with x := t.2.1, y := t.2.2 } = parseCoords o := by
  obtain ⟨hpx0, hxle, hxlt, hxin, hwm, hdvdx⟩ := alignX o hm hx0 hx1
  obtain ⟨hpy0, hyle, hylt, hyin, hhm, hdvdy⟩ := alignY o hm hy0 hy1
  simp only [calculateMetatile, getMetatileCoords, List.mem_flatMap, List.mem_map,
    List.mem_range] at ht
  obtain ⟨dx, hdx, dy, hdy, hteq⟩ := ht
  have htx : t.2.1 = (parseCoords o).2.1 + (dx : ℤ) := by rw [← hteq]
  have hty : t.2.2 = (parseCoords o).2.2 + (dy : ℤ) := by rw [← hteq]
  have hdxw : (dx : ℤ) < metaWidth o := by
    have := Int.toNat_of_nonneg (le_of_lt (lt_of_le_of_lt (by omega : (0:ℤ) ≤ o.x -
      (parseCoords o).2.1) (by omega : o.x - (parseCoords o).2.1 < metaWidth o)))
    omega
  have hdyh : (dy : ℤ) < metaHeight o := by omega
  have h1 : ({ o with x := t.2.1, y := t.2.2 } : TileOptions).x.tmod o.metatile = (dx : ℤ) := by
    simp only [htx]
    exact tmod_origin_add hm hpx0 hdvdx (by omega) (by omega)
  have h2 : ({ o with x := t.2.1, y := t.2.2 } : TileOptions).y.tmod o.metatile = (dy : ℤ) := by
    simp only [hty]
    exact tmod_origin_add hm hpy0 hdvdy (by omega) (by omega)
  simp only [parseCoords] at h1 h2 ⊢
  rw [h1, h2, htx, hty]
  simp only [add_sub_cancel_right]
  rfl

/-- C10: metatile alignment is absorbing — recomputing the region for
any member tile of a computed region yields the identical region (same
origin, extents, member tile sequence, bounding box) and hence the same
cache keys. -/
theorem calculateMetatile_absorbing (o : TileOptions) (hm : 1 ≤ o.metatile)
    (hx0 : 0 ≤ o.x) (hx1 : o.x < 2 ^ o.z) (hy0 : 0 ≤ o.y) (hy1 : o.y < 2 ^ o.z)
    (t : ℕ × ℤ × ℤ) (ht : t ∈ (calculateMetatile o).tiles) :
    calculateMetatile { o with x := t.2.1, y := t.2.2 } = calculateMetatile o ∧
    metatileBBox { o with x := t.2.1, y := t.2.2 } = metatileBBox o ∧
    ∀ format : String,
      metatileCacheKeys format { o with x := t.2.1, y := t.2.2 } =
        metatileCacheKeys format o := by
  have hp := memberTile_parseCoords o hm hx0 hx1 hy0 hy1 t ht
  have hw : metaWidth { o with x := t.2.1, y := t.2.2 } = metaWidth o := by
    simp only [metaWidth, hp]
  have hh : metaHeight { o with x := t.2.1, y := t.2.2 } = metaHeight o := by
    simp only [metaHeight, hp]
  have hc : calculateMetatile { o with x := t.2.1, y := t.2.2 } = calculateMetatile o := by
    simp only [calculateMetatile, hp, hw, hh]
  refine ⟨hc, ?_, fun format => ?_⟩
  · simp only [metatileBBox, hp, hw, hh]
  · simp only [metatileCacheKeys, hc]

/-- Witness for C10 at the concrete input
`metatile = 2, tileSize = 256, z = 2, x = 3, y = 1` with member tile
`(2, 2, 0)`. -/
theorem calculateMetatile_absorbing_witness :
    calculateMetatile { metatile := 2, tileSize := 256, z := 2, x := 2, y := 0 } =
      calculateMetatile { metatile := 2, tileSize := 256, z := 2, x := 3, y := 1 } ∧
    metatileBBox { metatile := 2, tileSize := 256, z := 2, x := 2, y := 0 } =
      metatileBBox { metatile := 2, tileSize := 256, z := 2, x := 3, y := 1 } ∧
    ∀ format : String,
      metatileCacheKeys format { metatile := 2, tileSize := 256, z := 2, x := 2, y := 0 } =
        metatileCacheKeys format { metatile := 2, tileSize := 256, z := 2, x := 3, y := 1 } :=
  calculateMetatile_absorbing { metatile := 2, tileSize := 256, z := 2, x := 3, y := 1 }
    (by decide) (by decide) (by decide) (by decide) (by decide)
    ((2 : ℕ), (2 : ℤ), (0 : ℤ)) (by decide)

/-- C5: the bounding box computed by the code equals the spec formulas
with `R = 6378137` and tile constant 256 — `getBoundingBox` applied at
`resolution = MAX_RES / 2^z` (exactly how `calculateMetatile` calls it)
agrees with `specBoundingBox` at `total = 2^z` — and for `z = 0` the
box of the computed region is
`(−20037508.3428, −20037508.3428, 20037508.3428, 20037508.3428)` within
floating-point tolerance. -/
theorem metatileBBox_matches_spec :
    (∀ (z : ℕ) (x y w h : ℝ),
      getBoundingBox x y (MAX_RES / 2 ^ z) w h = specBoundingBox (2 ^ z) x y w h) ∧
    |(metatileBBox { metatile := 2, tileSize := 256, z := 0, x := 0, y := 0 }).1 -
      (-20037508.3428)| < 0.001 ∧
    |(metatileBBox { metatile := 2, tileSize := 256, z := 0, x := 0, y := 0 }).2.1 -
      (-20037508.3428)| < 0.001 ∧
    |(metatileBBox { metatile := 2, tileSize := 256, z := 0, x := 0, y := 0 }).2.2.1 -
      20037508.3428| < 0.001 ∧
    |(metatileBBox { metatile := 2, tileSize := 256, z := 0, x := 0, y := 0 }).2.2.2 -
      20037508.3428| < 0.001 := by
  have hgen : ∀ (z : ℕ) (x y w h : ℝ),
      getBoundingBox x y (MAX_RES / 2 ^ z) w h = specBoundingBox (2 ^ z) x y w h := by
    intro z x y w h
    simp only [getBoundingBox, specBoundingBox, MAX_RES, ORIGIN_SHIFT,
      EARTH_CIRCUMFERENCE, EARTH_DIAMETER, EARTH_RADIUS, Prod.mk.injEq]
    refine ⟨by ring, by ring, by ring, by ring⟩
  have hpx : (parseCoords { metatile := 2, tileSize := 256, z := 0, x := 0, y := 0 }).2.1 =
      0 := by decide
  have hpy : (parseCoords { metatile := 2, tileSize := 256, z := 0, x := 0, y := 0 }).2.2 =
      0 := by decide
  have hw : metaWidth { metatile := 2, tileSize := 256, z := 0, x := 0, y := 0 } = 1 := by
    decide
  have hh : metaHeight { metatile := 2, tileSize := 256, z := 0, x := 0, y := 0 } = 1 := by
    decide
  have hb : metatileBBox { metatile := 2, tileSize := 256, z := 0, x := 0, y := 0 } =
      (-(6378137 * Real.pi), -(6378137 * Real.pi), 6378137 * Real.pi, 6378137 * Real.pi) := by
    simp only [metatileBBox, hpx, hpy, hw, hh, getBoundingBox, MAX_RES, ORIGIN_SHIFT,
      EARTH_CIRCUMFERENCE, EARTH_DIAMETER, EARTH_RADIUS, Prod.mk.injEq]
    norm_num
    refine ⟨by ring, by ring, by ring, by ring⟩
  have hπ₁ := Real.pi_gt_d20
  have hπ₂ := Real.pi_lt_d20
  refine ⟨hgen, ?_, ?_, ?_, ?_⟩ <;>
    rw [hb] <;> rw [abs_lt] <;> constructor <;> nlinarith

lemma jsMod_int (x m : ℤ) (hx : 0 ≤ x) (hm : 1 ≤ m) :
    jsMod (x : ℚ) (m : ℚ) = ((x.tmod m : ℤ) : ℚ) := by
  have h0 : (0 : ℚ) ≤ (x : ℚ) / (m : ℚ) :=
    div_nonneg (by exact_mod_cast hx) (by exact_mod_cast (by omega : (0 : ℤ) ≤ m))
  rw [Int.tmod_eq_emod hx (by omega)]
  lift m to ℕ using (by omega : (0 : ℤ) ≤ m) with n
  rw [jsMod, jsTrunc, if_pos h0]
  have hfl : ⌊(x : ℚ) / (((n : ℕ) : ℤ) : ℚ)⌋ = x / ((n : ℕ) : ℤ) := by
    rw [show ((((n : ℕ) : ℤ)) : ℚ) = ((n : ℕ) : ℚ) by push_cast; ring]
    exact Rat.floor_intCast_div_natCast x n
  rw [hfl]
  have hdm := Int.ediv_add_emod x ((n : ℕ) : ℤ)
  have hdm2 : ((((n : ℕ) : ℤ) * (x / ((n : ℕ) : ℤ)) + x % ((n : ℕ) : ℤ) : ℤ) : ℚ) =
      (x : ℚ) := by
    exact_mod_cast congrArg (fun t : ℤ => (t : ℚ)) hdm
  have hval : ((x % ((n : ℕ) : ℤ) : ℤ) : ℚ) =
      (x : ℚ) - (((n : ℕ) : ℤ) : ℚ) * ((x / ((n : ℕ) : ℤ) : ℤ) : ℚ) := by
    push_cast
    push_cast at hdm2
    linarith
  rw [hval]

/-- C8 counterexample: at the concrete input `z = -1`,
`metatileSize = 1`, `tileSizePx = 256`, `x = y = 0`, the computation
does not fail with `InvalidParameter` — it returns normally (the source
contains no validation), producing a half-tile region of pixel width
128 whose single member tile carries the negative `z`. -/
theorem calculateMetatileQ_negative_z_returns :
    (calculateMetatileQE { metatile := 1, tileSize := 256, z := -1, x := 0, y := 0 }).isOk =
      true ∧
    calculateMetatileQ { metatile := 1, tileSize := 256, z := -1, x := 0, y := 0 } =
      { width := 128, height := 128, x := 0, y := 0, tiles := [(-1, 0, 0)] } := by
  refine ⟨rfl, ?_⟩
  have hmod : jsMod (0 : ℚ) (1 : ℚ) = 0 := by
    simp [jsMod, jsTrunc]
  have htot : ((2 : ℚ) ^ (-1 : ℤ)) = 1 / 2 := by norm_num
  have hceil : ⌈(1 / 2 : ℚ)⌉ = 1 := by
    rw [Int.ceil_eq_iff]
    constructor <;> norm_num
  have hcount : loopCount (1 / 2) = 1 := by
    rw [loopCount, hceil]
    rfl
  simp only [calculateMetatileQ, hmod, sub_zero, htot]
  norm_num [hcount, List.flatMap, MetatileQ.mk.injEq]
  simp [show List.range 1 = [0] from rfl]

/-- C8 (amended): the metatile computation is pure and total — it never
fails on any numeric input (there is no validation and no
`InvalidParameter` error in the code), and on the valid domain
(`metatileSize ≥ 1`, `z ≥ 0`, non-negative coordinates) it agrees with
the exact integer computation of the region. -/
theorem calculateMetatileQ_total_and_agrees (o : TileOptions) (hm : 1 ≤ o.metatile)
    (hx0 : 0 ≤ o.x) (hy0 : 0 ≤ o.y) :
    (∀ oq : TileOptionsQ, (calculateMetatileQE oq).isOk = true) ∧
    calculateMetatileQ o.toQ = (calculateMetatile o).toQ := by
  refine ⟨fun _ => rfl, ?_⟩
  have hox : (o.toQ).x = (o.x : ℚ) := rfl
  have hom : (o.toQ).metatile = (o.metatile : ℚ) := rfl
  have horx : (o.x : ℚ) - jsMod (o.x : ℚ) (o.metatile : ℚ) = ((parseCoords o).2.1 : ℚ) := by
    rw [jsMod_int o.x o.metatile hx0 hm]
    push_cast [parseCoords]
    ring
  have hory : (o.y : ℚ) - jsMod (o.y : ℚ) (o.metatile : ℚ) = ((parseCoords o).2.2 : ℚ) := by
    rw [jsMod_int o.y o.metatile hy0 hm]
    push_cast [parseCoords]
    ring
  have htot : ((2 : ℚ) ^ ((o.z : ℕ) : ℤ)) = ((2 ^ o.z : ℤ) : ℚ) := by
    rw [zpow_natCast]
    push_cast
    ring
  have hminw : min ((o.metatile : ℤ) : ℚ) (min ((2 ^ o.z : ℤ) : ℚ)
      (((2 ^ o.z : ℤ) : ℚ) - ((parseCoords o).2.1 : ℚ))) = ((metaWidth o : ℤ) : ℚ) := by
    rw [metaWidth]
    push_cast
    ring_nf
  have hminh : min ((o.metatile : ℤ) : ℚ) (min ((2 ^ o.z : ℤ) : ℚ)
      (((2 ^ o.z : ℤ) : ℚ) - ((parseCoords o).2.2 : ℚ))) = ((metaHeight o : ℤ) : ℚ) := by
    rw [metaHeight]
    push_cast
    ring_nf
  have hcw : loopCount ((metaWidth o : ℤ) : ℚ) = (metaWidth o).toNat := by
    simp [loopCount, Int.ceil_intCast]
  have hch : loopCount ((metaHeight o : ℤ) : ℚ) = (metaHeight o).toNat := by
    simp [loopCount, Int.ceil_intCast]
  show calculateMetatileQ o.toQ = (calculateMetatile o).toQ
  simp only [calculateMetatileQ, TileOptions.toQ, hox, hom, horx, hory, htot, hminw, hminh,
    hcw, hch, Metatile.toQ, calculateMetatile, MetatileQ.mk.injEq]
  refine ⟨by push_cast; ring, by push_cast; ring, trivial, trivial, ?_⟩
  rw [getMetatileCoords, List.map_flatMap]
  congr 1
  funext dx
  rw [List.map_map]
  congr 1
  funext dy
  simp only [Function.comp, tileToQ]
  push_cast
  rfl

/-- Witness for the amended C8 theorem at the concrete input
`metatile = 2, tileSize = 256, z = 2, x = 3, y = 1`. -/
theorem calculateMetatileQ_total_and_agrees_witness :
    (∀ oq : TileOptionsQ, (calculateMetatileQE oq).isOk = true) ∧
    calculateMetatileQ (TileOptions.toQ { metatile := 2, tileSize := 256, z := 2, x := 3, y := 1 }) =
      (calculateMetatile { metatile := 2, tileSize := 256, z := 2, x := 3, y := 1 }).toQ :=
  calculateMetatileQ_total_and_agrees { metatile := 2, tileSize := 256, z := 2, x := 3, y := 1 }
    (by decide) (by decide) (by decide)

/-- C7: `getTile` and `getGrid` validate the coordinates first — if
`z`, `x` or `y` is non-numeric (`NaN` after coercion), or `x` or `y` is
outside `[0, 2^z)`, or `2^z` is not finite as a double, the callback
receives the error synchronously and the request never reaches the
metatile cache (hence neither the cache generator nor the pool). -/
theorem renderTile_rejects_invalid (infoFormat : Option String) (z x y : Option ℤ)
    (h : z = none ∨ x = none ∨ y = none ∨
      ∃ zv xv yv : ℤ, z = some zv ∧ x = some xv ∧ y = some yv ∧
        (1024 ≤ zv ∨ (2 : ℚ) ^ zv ≤ (xv : ℚ) ∨ xv < 0 ∨
          (2 : ℚ) ^ zv ≤ (yv : ℚ) ∨ yv < 0)) :
    (∃ e, getTileStep infoFormat z x y = .fail e) ∧
    (∃ e, getGridStep z x y = .fail e) ∧
    (∀ k, getTileStep infoFormat z x y ≠ .cacheGet k) ∧
    (∀ k, getGridStep z x y ≠ .cacheGet k) := by
  have herr : ∃ e, areValidCoords z x y = .error e := by
    rcases h with hz | hx | hy | ⟨zv, xv, yv, hz, hx, hy, hcond⟩
    · subst hz
      exact ⟨"Invalid coordinates", by cases x <;> cases y <;> rfl⟩
    · subst hx
      exact ⟨"Invalid coordinates", by cases z <;> cases y <;> rfl⟩
    · subst hy
      exact ⟨"Invalid coordinates", by cases z <;> cases x <;> rfl⟩
    · subst hz hx hy
      refine ⟨"Coordinates out of range", ?_⟩
      show areCoordsInRange zv xv yv = .error "Coordinates out of range"
      simp only [areCoordsInRange]
      rw [if_pos hcond]
  obtain ⟨e, he⟩ := herr
  refine ⟨⟨e, ?_⟩, ⟨e, ?_⟩, ?_, ?_⟩
  · simp only [getTileStep, renderTile, he]
  · simp only [getGridStep, renderTile, he]
  · intro k
    simp only [getTileStep, renderTile, he]
    exact fun hcontra => RenderTileStep.noConfusion hcontra
  · intro k
    simp only [getGridStep, renderTile, he]
    exact fun hcontra => RenderTileStep.noConfusion hcontra

/-- Witness for C7 at the concrete invalid input `z = 0, x = 0, y = -1`
(`y` below the valid range). -/
theorem renderTile_rejects_invalid_witness :
    (∃ e, getTileStep none (some 0) (some 0) (some (-1)) = .fail e) ∧
    (∃ e, getGridStep (some 0) (some 0) (some (-1)) = .fail e) ∧
    (∀ k, getTileStep none (some 0) (some 0) (some (-1)) ≠ .cacheGet k) ∧
    (∀ k, getGridStep (some 0) (some 0) (some (-1)) ≠ .cacheGet k) :=
  renderTile_rejects_invalid none (some 0) (some 0) (some (-1))
    (Or.inr (Or.inr (Or.inr ⟨0, 0, -1, rfl, rfl, rfl,
      Or.inr (Or.inr (Or.inr (Or.inr (by decide))))⟩)))

/-- C4 (evaluation of the code paths): the four release-discipline
paths the claim names do release the acquired handle exactly once —
an acquired failed (non-`Map`) value, a successful `map.render`, a
`map.render` error, and a synchronous throw during setup — but the
`utf`-format request against a map without interactivity parameters
exits through `return callback(new Error('Tileset has no
interactivity'))` with zero releases, leaking the acquired handle. -/
theorem renderMetatile_release_discipline :
    renderMetatile "utf" (.resolved (.validMap false)) .rendered =
      { releases := 0, outcome := .error "Tileset has no interactivity" } ∧
    (∀ e render, renderMetatile "png" (.resolved (.failedResource e)) render =
      { releases := 1, outcome := .error e }) ∧
    (∀ e, renderMetatile "png" (.resolved (.validMap true)) (.renderThrew e) =
      { releases := 1, outcome := .error e }) ∧
    (∀ e, renderMetatile "png" (.resolved (.validMap true)) (.renderCallbackError e) =
      { releases := 1, outcome := .error e }) ∧
    renderMetatile "png" (.resolved (.validMap true)) .rendered =
      { releases := 1, outcome := .ok () } ∧
    renderMetatile "utf" (.resolved (.validMap true)) .rendered =
      { releases := 1, outcome := .ok () } :=
  ⟨rfl, fun _ _ => rfl, fun _ => rfl, fun _ => rfl, rfl, rfl⟩

/-- C9: pool handle construction never rejects the acquire promise —
every construction outcome resolves, a `fromString` error or a thrown
exception resolves as a failed (non-`Map`) handle through the normal
path — and the caller checks the acquired value's kind, releases a
failed handle exactly once, and surfaces its error to the callback. -/
theorem poolCreate_never_rejects :
    (∀ o : CreateOutcome, ∃ r, poolCreate o = .resolved r) ∧
    (∀ e, poolCreate (.fromStringFailed e) = .resolved (.failedResource e)) ∧
    (∀ e, poolCreate (.ctorThrew e) = .resolved (.failedResource e)) ∧
    (∀ format e render, renderMetatile format (.resolved (.failedResource e)) render =
      { releases := 1, outcome := .error e }) :=
  ⟨fun o => by cases o <;> exact ⟨_, rfl⟩, fun _ => rfl, fun _ => rfl,
    fun _ _ _ => rfl⟩

lemma lookup_pendingMap_mem {V : Type} (L : List String) (rest : List (String × LCEntry V))
    (k : String) (hk : k ∈ L) :
    ((L.map (fun key => (key, (LCEntry.pending : LCEntry V)))) ++ rest).lookup k =
      some .pending := by
  induction L with
  | nil => exact absurd hk (List.not_mem_nil k)
  | cons a L ih =>
    by_cases hak : k = a
    · subst hak
      simp [List.lookup]
    · have hkL : k ∈ L := by
        rcases List.mem_cons.1 hk with h | h
        · exact absurd h hak
        · exact h
      have hba : (k == a) = false := beq_eq_false_iff_ne.2 hak
      simp only [List.map_cons, List.cons_append, List.lookup, hba]
      exact ih hkL

lemma lcGet_pending {V : Type} (g : String → List String) (s : LCState V) (k : String)
    (hp : s.entries.lookup k = some .pending) :
    lcGet g s k = (s, .joined) := by
  simp [lcGet, hp]

lemma lcRun_all_pending {V : Type} (g : String → List String) (s : LCState V)
    (ks : List String) (hp : ∀ k ∈ ks, s.entries.lookup k = some .pending) :
    lcRun g s ks = (s, ks.map fun _ => .joined) := by
  induction ks with
  | nil => rfl
  | cons a ks ih =>
    have ha := lcGet_pending g s a (hp a (List.mem_cons_self a ks))
    have hrest := ih (fun k hk => hp k (List.mem_cons_of_mem a hk))
    simp [lcRun, ha, hrest]

/-- C1 (LockingCache modelled from the spec, `lib/lockingcache.js` not
being under `src`): while a batch is pending and unresolved, any number
of `get` calls for keys of the batch trigger exactly one generator
invocation — the first call generates (and reports MISS), every further
call joins the in-flight generation — and once a key is resolved by a
`put`, a `get` for it is served from the cache with a HIT and no new
invocation. -/
theorem lockingCache_single_generation {V : Type} (g : String → List String)
    (s₀ : LCState V) (k₀ : String) (ks : List String)
    (hks : ∀ k ∈ ks, k ∈ g k₀)
    (habsent : s₀.entries.lookup k₀ = none) :
    (lcRun g s₀ (k₀ :: ks)).1.invocations = s₀.invocations + 1 ∧
    (lcRun g s₀ (k₀ :: ks)).2 = .generated :: ks.map (fun _ => .joined) ∧
    cacheStatusHeader .generated = "MISS" ∧
    (∀ (s : LCState V) (k : String) (v : V),
      (lcGet g (lcPut s k v) k).2 = .hit ∧
      (lcGet g (lcPut s k v) k).1.invocations = s.invocations ∧
      cacheStatusHeader (lcGet g (lcPut s k v) k).2 = "HIT") := by
  have h1 : lcGet g s₀ k₀ =
      ({ entries := (g k₀).map (fun key => (key, LCEntry.pending)) ++ s₀.entries,
         invocations := s₀.invocations + 1 }, .generated) := by
    simp [lcGet, habsent]
  have hpend : ∀ k ∈ ks,
      (({ entries := (g k₀).map (fun key => (key, LCEntry.pending)) ++ s₀.entries,
          invocations := s₀.invocations + 1 } : LCState V)).entries.lookup k =
        some .pending :=
    fun k hk => lookup_pendingMap_mem (g k₀) s₀.entries k (hks k hk)
  have h2 := lcRun_all_pending g
    ({ entries := (g k₀).map (fun key => (key, LCEntry.pending)) ++ s₀.entries,
       invocations := s₀.invocations + 1 } : LCState V) ks hpend
  refine ⟨?_, ?_, rfl, ?_⟩
  · simp [lcRun, h1, h2]
  · simp [lcRun, h1, h2]
  · intro s k v
    have : (lcPut s k v).entries.lookup k = some (.resolved v) := by
      simp [lcPut, List.lookup]
    exact ⟨by simp [lcGet, this], by simp [lcGet, this, lcPut],
      by simp [lcGet, this, cacheStatusHeader]⟩

/-- Witness for C1: two keys `a`, `b` claimed by one generation; three
requests (`a`, then `b`, then `a` again) before resolution yield one
invocation, with the first reporting MISS and the rest joining. -/
theorem lockingCache_single_generation_witness :
    (lcRun (fun _ => ["a", "b"]) ({ entries := [], invocations := 0 } : LCState ℕ)
      ["a", "b", "a"]).1.invocations = 0 + 1 ∧
    (lcRun (fun _ => ["a", "b"]) ({ entries := [], invocations := 0 } : LCState ℕ)
      ["a", "b", "a"]).2 = .generated :: (["b", "a"].map (fun _ => .joined)) ∧
    cacheStatusHeader .generated = "MISS" ∧
    (∀ (s : LCState ℕ) (k : String) (v : ℕ),
      (lcGet (fun _ => ["a", "b"]) (lcPut s k v) k).2 = .hit ∧
      (lcGet (fun _ => ["a", "b"]) (lcPut s k v) k).1.invocations = s.invocations ∧
      cacheStatusHeader (lcGet (fun _ => ["a", "b"]) (lcPut s k v) k).2 = "HIT") :=
  lockingCache_single_generation (fun _ => ["a", "b"])
    ({ entries := [], invocations := 0 } : LCState ℕ) "a" ["b", "a"]
    (by decide) rfl

lemma applyPuts_lookup_not_mem {V : Type} (l : List (String × V)) (s : LCState V)
    (k : String) (hk : k ∉ l.map Prod.fst) :
    ((applyPuts s l).entries).lookup k = s.entries.lookup k := by
  induction l generalizing s with
  | nil => rfl
  | cons a l ih =>
    have hka : k ≠ a.1 := by
      intro hcontra
      exact hk (by simp [hcontra])
    have hkl : k ∉ l.map Prod.fst := by
      intro hcontra
      exact hk (by simp [hcontra])
    have hba : (k == a.1) = false := beq_eq_false_iff_ne.2 hka
    calc ((applyPuts (lcPut s a.1 a.2) l).entries).lookup k
        = ((lcPut s a.1 a.2).entries).lookup k := ih (lcPut s a.1 a.2) hkl
      _ = s.entries.lookup k := by simp [lcPut, List.lookup, hba]

lemma applyPuts_lookup_all_same {V : Type} (l : List (String × V)) (s : LCState V)
    (k : String) (v : V) (hall : ∀ p ∈ l, p.2 = v) (hk : k ∈ l.map Prod.fst) :
    ((applyPuts s l).entries).lookup k = some (.resolved v) := by
  induction l generalizing s with
  | nil => exact absurd hk (List.not_mem_nil k)
  | cons a l ih =>
    by_cases hkl : k ∈ l.map Prod.fst
    · exact ih (lcPut s a.1 a.2) (fun p hp => hall p (List.mem_cons_of_mem a hp)) hkl
    · have hka : k = a.1 := by
        have hk2 := hk
        rw [List.map_cons] at hk2
        rcases List.mem_cons.1 hk2 with h | h
        · exact h
        · exact absurd h hkl
      have hav : a.2 = v := hall a (List.mem_cons_self a l)
      calc ((applyPuts (lcPut s a.1 a.2) l).entries).lookup k
          = ((lcPut s a.1 a.2).entries).lookup k :=
            applyPuts_lookup_not_mem l (lcPut s a.1 a.2) k hkl
        _ = some (.resolved v) := by simp [lcPut, List.lookup, hka, hav]

/-- C3: when generation fails, the generator callback issues a `put`
with that same error object for every cache key the generation claimed,
no `put` carries a successful value, and applying those puts resolves
every claimed key with that error in the cache. -/
theorem metatileCache_error_fanout {E V : Type} (format : String) (o : TileOptions) (e : E) :
    (generatorPuts (metatileCacheKeys format o) (.error e) : List (String × Except E V)) =
      (metatileCacheKeys format o).map (fun k => (k, .error e)) ∧
    (∀ k, k ∈ metatileCacheKeys format o →
      (k, (Except.error e : Except E V)) ∈
        (generatorPuts (metatileCacheKeys format o) (.error e) : List (String × Except E V))) ∧
    (∀ p, p ∈ (generatorPuts (metatileCacheKeys format o) (.error e) :
        List (String × Except E V)) → p.2 = .error e) ∧
    (∀ (s : LCState (Except E V)) (k : String), k ∈ metatileCacheKeys format o →
      ((applyPuts s (generatorPuts (metatileCacheKeys format o)
        (.error e))).entries).lookup k = some (.resolved (.error e))) := by
  refine ⟨rfl, ?_, ?_, ?_⟩
  · intro k hk
    exact List.mem_map.2 ⟨k, hk, rfl⟩
  · intro p hp
    obtain ⟨k, _, hk⟩ := List.mem_map.1 hp
    rw [← hk]
  · intro s k hk
    refine applyPuts_lookup_all_same _ s k (.error e) ?_ ?_
    · intro p hp
      obtain ⟨q, _, hq⟩ := List.mem_map.1 hp
      rw [← hq]
    · simp only [generatorPuts, List.map_map]
      refine List.mem_map.2 ⟨k, hk, rfl⟩

/-- Witness for C3 at `format = "png"`, `z = 0, x = 0, y = 0`
(single-tile batch) with a concrete error value. -/
theorem metatileCache_error_fanout_witness :
    (generatorPuts (metatileCacheKeys "png" { metatile := 1, tileSize := 256, z := 0, x := 0, y := 0 })
        (.error "render failed") : List (String × Except String ℕ)) =
      (metatileCacheKeys "png" { metatile := 1, tileSize := 256, z := 0, x := 0, y := 0 }).map
        (fun k => (k, .error "render failed")) ∧
    (∀ k, k ∈ metatileCacheKeys "png" { metatile := 1, tileSize := 256, z := 0, x := 0, y := 0 } →
      (k, (Except.error "render failed" : Except String ℕ)) ∈
        (generatorPuts (metatileCacheKeys "png" { metatile := 1, tileSize := 256, z := 0, x := 0, y := 0 })
          (.error "render failed") : List (String × Except String ℕ))) ∧
    (∀ p, p ∈ (generatorPuts (metatileCacheKeys "png" { metatile := 1, tileSize := 256, z := 0, x := 0, y := 0 })
        (.error "render failed") : List (String × Except String ℕ)) → p.2 = .error "render failed") ∧
    (∀ (s : LCState (Except String ℕ)) (k : String),
      k ∈ metatileCacheKeys "png" { metatile := 1, tileSize := 256, z := 0, x := 0, y := 0 } →
      ((applyPuts s (generatorPuts (metatileCacheKeys "png" { metatile := 1, tileSize := 256, z := 0, x := 0, y := 0 })
        (.error "render failed"))).entries).lookup k = some (.resolved (.error "render failed"))) :=
  metatileCache_error_fanout "png" { metatile := 1, tileSize := 256, z := 0, x := 0, y := 0 }
    "render failed"

end TileliveMapnik
